import Mathlib

/-!
Shallow embedding of the missing-inventory reconciliation engine of the
RetailTools repository.

Sources embedded:
* `missingInventoryHighlighter.py/missingInventory.py` —
  `buildInventoryLookup` (lines 38-49), `getMissingInventory`
  (lines 100-157, pure parts; the network fetches `getInventory`,
  `getItems`, `getLocationName`, `getAccountName` and the CSV writer
  `writeToCSV` are I/O collaborators: the location-name fetch is passed
  in as a function argument `fetchName`, the CSV write has no effect on
  the returned value and is dropped), `hasInventory` (lines 28-36).
* `docs/optimization_example.py` — `hasInventory_OLD` (lines 44-57),
  `findMissing_OLD` (lines 60-81), `buildInventoryLookup` (lines 88-106,
  textually identical to the one in missingInventory.py, embedded once),
  `findMissing_NEW` (lines 109-134).

Python dictionaries with optional fields are embedded as structures with
`Option` fields; Python truthiness of a string-or-None value (`if plu:`)
is `truthy` below.  A Python `set` built only by `add` and queried only
by `in` is embedded as the list of added elements with list membership.
A Python `dict` (insertion-ordered, assignment updates in place) is
embedded as an association list with `dictInsert`.
-/

/-- A catalog item as produced by `getItems`: `{"plu": ..., "name": ...}`,
either field possibly absent/None. -/
structure CatalogItem where
  plu : Option String
  name : Option String
deriving DecidableEq

/-- One element of an inventory record's `locations` list:
`{"location": ...}`, the id possibly absent. -/
structure LocEntry where
  location : Option String
deriving DecidableEq

/-- An inventory record: `{"plu": ..., "locations": [...]}`, either field
possibly absent (`item.get("locations", [])` defaults to `[]`). -/
structure InventoryRecord where
  plu : Option String
  locations : Option (List LocEntry)
deriving DecidableEq

/-- Python truthiness of a string: `if s:` holds iff `s` is non-empty. -/
def truthyStr (s : String) : Bool := decide (s ≠ "")

/-- Python truthiness of `d.get(key)`: None and `""` are falsy. -/
def truthy : Option String → Bool
  | some s => truthyStr s
  | none => false

/-- The pairs contributed by one record's `locations` list in
`buildInventoryLookup`: for each `loc_obj`, read `loc_obj.get("location")`
and add `(plu, location_id)` when `location_id` is truthy. -/
def entryPairs (plu : String) (entries : List LocEntry) : List (String × String) :=
  entries.filterMap fun lo =>
    match lo.location with
    | some l => if truthyStr l then some (plu, l) else none
    | none => none

/-- The pairs contributed by one inventory record: skipped entirely when
`item.get("plu")` is falsy. -/
def recordPairs (item : InventoryRecord) : List (String × String) :=
  match item.plu with
  | some p => if truthyStr p then entryPairs p (item.locations.getD []) else []
  | none => []

/-- `buildInventoryLookup` (missingInventory.py lines 38-49, identical in
optimization_example.py lines 88-106): the set of `(plu, location)`
pairs, embedded as the list of added pairs. -/
def buildInventoryLookup : List InventoryRecord → List (String × String)
  | [] => []
  | item :: rest => recordPairs item ++ buildInventoryLookup rest

/-- The per-item filter loop of `getMissingInventory`
(missingInventory.py lines 147-152, also the inner loop of
`findMissing_NEW`): keep `item` iff `plu` is truthy and
`(plu, locationId)` is not in the index. -/
def findMissing (items : List CatalogItem) (locationId : String)
    (index : List (String × String)) : List CatalogItem :=
  items.filter fun item =>
    match item.plu with
    | some p => truthyStr p && !(decide ((p, locationId) ∈ index))
    | none => false

/-- The same filter loop as it runs in the all-locations branch
(missingInventory.py lines 131-135), where `loc_id` may be `None`
(a dict location without `"id"`): the tuple `(plu, None)` is never a
member of a set of string pairs. -/
def findMissingOpt (items : List CatalogItem) (locId : Option String)
    (index : List (String × String)) : List CatalogItem :=
  items.filter fun item =>
    match item.plu with
    | some p =>
      truthyStr p &&
        !(match locId with
          | some l => decide ((p, l) ∈ index)
          | none => false)
    | none => false

/-- `hasInventory` (missingInventory.py lines 28-36) =
`hasInventory_OLD` (optimization_example.py lines 44-57): linear scan for
a record with this plu holding this location. -/
def hasInventory_OLD (inventory : List InventoryRecord) (plu : Option String)
    (location : String) : Bool :=
  inventory.any fun item =>
    item.plu == plu &&
      (item.locations.getD []).any fun lo => lo.location == some location

/-- Python `d[k] = v` on an insertion-ordered dict embedded as an
association list: update in place when the key exists, append otherwise. -/
def dictInsert {κ α : Type} [DecidableEq κ] (d : List (κ × α)) (k : κ) (v : α) :
    List (κ × α) :=
  if d.any fun kv => decide (kv.1 = k) then
    d.map fun kv => if kv.1 = k then (k, v) else kv
  else d ++ [(k, v)]

/-- Python `d.get(k)`. -/
def dictGet {κ α : Type} [DecidableEq κ] (d : List (κ × α)) (k : κ) : Option α :=
  match d.find? fun kv => decide (kv.1 = k) with
  | some kv => some kv.2
  | none => none

/-- The loop of `findMissing_OLD` (optimization_example.py lines 60-81):
per location, filter the items by `not hasInventory_OLD(...)` — note that
unlike the NEW code there is no truthiness check on the item's plu —
and store a non-empty result under the location key. -/
def findMissingOldLoop (inventory : List InventoryRecord) (items : List CatalogItem) :
    List String → List (String × List CatalogItem) → List (String × List CatalogItem)
  | [], acc => acc
  | loc :: rest, acc =>
    let missing := items.filter fun item => !hasInventory_OLD inventory item.plu loc
    findMissingOldLoop inventory items rest
      (if missing.isEmpty then acc else dictInsert acc loc missing)

/-- `findMissing_OLD` (optimization_example.py lines 60-81). -/
def findMissing_OLD (inventory : List InventoryRecord) (items : List CatalogItem)
    (locations : List String) : List (String × List CatalogItem) :=
  findMissingOldLoop inventory items locations []

/-- The loop of `findMissing_NEW` (optimization_example.py lines 122-132):
per location, the same filter as `findMissing`, storing non-empty results. -/
def findMissingNewLoop (lookup : List (String × String)) (items : List CatalogItem) :
    List String → List (String × List CatalogItem) → List (String × List CatalogItem)
  | [], acc => acc
  | loc :: rest, acc =>
    let missing := findMissing items loc lookup
    findMissingNewLoop lookup items rest
      (if missing.isEmpty then acc else dictInsert acc loc missing)

/-- `findMissing_NEW` (optimization_example.py lines 109-134): build the
lookup once, then run the per-location filter loop. -/
def findMissing_NEW (inventory : List InventoryRecord) (items : List CatalogItem)
    (locations : List String) : List (String × List CatalogItem) :=
  findMissingNewLoop (buildInventoryLookup inventory) items locations []

/-- One element of the `locations` list in the all-locations branch of
`getMissingInventory` (missingInventory.py lines 118-129): the code
accepts either a plain string id or a dict, read with `loc.get("id")`
and `loc.get("name")`. -/
inductive LocInput where
  | str (s : String)
  | dict (id : Option String) (name : Option String)
deriving DecidableEq

/-- `loc if isinstance(loc, str) else loc.get("id")`
(missingInventory.py lines 119 and 129). -/
def locId : LocInput → Option String
  | .str s => some s
  | .dict i _ => i

/-- The location-name cache loop (missingInventory.py lines 116-124):
for each location, store `loc.get("name")` when `loc` is a dict with a
truthy name, else the fetched name `fetchName loc_id` (the network call
`getLocationName`, passed in as a function). -/
def buildNameCache (fetchName : Option String → Option String) :
    List LocInput → List (Option String × Option String) →
    List (Option String × Option String)
  | [], cache => cache
  | loc :: rest, cache =>
    let lid := locId loc
    let v :=
      match loc with
      | .dict _ (some n) => if truthyStr n then some n else fetchName lid
      | _ => fetchName lid
    buildNameCache fetchName rest (dictInsert cache lid v)

/-- `location_name_cache.get(loc_id, "Unknown")`
(missingInventory.py line 137). -/
def cacheGet (cache : List (Option String × Option String)) (k : Option String) :
    Option String :=
  match dictGet cache k with
  | some v => v
  | none => some "Unknown"

/-- The per-location entry stored in `missing_per_location`
(missingInventory.py lines 139-144). -/
structure LocReport where
  location_name : Option String
  location_id : Option String
  missing_items : List CatalogItem
  count : Nat
deriving DecidableEq

/-- The entry built at missingInventory.py lines 139-144 for a location id. -/
def mkReport (cache : List (Option String × Option String))
    (items : List CatalogItem) (lookup : List (String × String))
    (lid : Option String) : LocReport :=
  let missing := findMissingOpt items lid lookup
  { location_name := cacheGet cache lid
    location_id := lid
    missing_items := missing
    count := missing.length }

/-- The report-building loop (missingInventory.py lines 127-144):
for each location, compute the missing items and, when non-empty, store
the entry under `loc_id` (the `writeToCSV` call is I/O with no effect on
the returned mapping and is dropped). -/
def reportLoop (cache : List (Option String × Option String))
    (items : List CatalogItem) (lookup : List (String × String)) :
    List LocInput → List (Option String × LocReport) →
    List (Option String × LocReport)
  | [], acc => acc
  | loc :: rest, acc =>
    let lid := locId loc
    let missing := findMissingOpt items lid lookup
    reportLoop cache items lookup rest
      (if missing.isEmpty then acc
       else dictInsert acc lid (mkReport cache items lookup lid))

/-- The pure value computed and returned by the all-locations branch of
`getMissingInventory` (missingInventory.py lines 107-145): build the
lookup once, build the name cache, then run the report loop. -/
def getMissingInventoryAll (fetchName : Option String → Option String)
    (items : List CatalogItem) (inventory : List InventoryRecord)
    (locations : List LocInput) : List (Option String × LocReport) :=
  let lookup := buildInventoryLookup inventory
  let cache := buildNameCache fetchName locations []
  reportLoop cache items lookup locations []

/-- The pure value computed and returned by the single-location branch of
`getMissingInventory` (missingInventory.py lines 146-157). -/
def getMissingInventorySingle (items : List CatalogItem)
    (inventory : List InventoryRecord) (location : String) : List CatalogItem :=
  findMissing items location (buildInventoryLookup inventory)

/-- The dashboard's derived total (app.py line 954):
`sum(loc_data["count"] for loc_data in missing_per_location.values())`. -/
def totalMissingItems (m : List (Option String × LocReport)) : Nat :=
  (m.map fun kv => kv.2.count).sum

/-- The dashboard's derived location count (app.py line 953):
`len(missing_per_location)`. -/
def locationsWithMissingCount (m : List (Option String × LocReport)) : Nat :=
  m.length

/-- A per-location entry with its presentation-only `location_name`
dropped: the key, id, missing items and count. -/
def stripReport (r : LocReport) : Option String × List CatalogItem × Nat :=
  (r.location_id, r.missing_items, r.count)

/-- A result mapping with every entry's `location_name` dropped. -/
def stripAll (m : List (Option String × LocReport)) :
    List (Option String × Option String × List CatalogItem × Nat) :=
  m.map fun kv => (kv.1, stripReport kv.2)

/-- The `buildInventoryLookup` loop in state-passing form: each iteration
only reads the current record (`item.get(...)`), so the traversed input
list is returned unchanged alongside the locally built lookup. -/
def buildInventoryLookupSt :
    List InventoryRecord → List (String × String) × List InventoryRecord
  | [] => ([], [])
  | item :: rest =>
    let pairs := recordPairs item
    let r := buildInventoryLookupSt rest
    (pairs ++ r.1, item :: r.2)

/-- The `findMissing` filter loop in state-passing form: each iteration
only reads the current item, so the traversed items list is returned
unchanged alongside the locally built output list. -/
def findMissingSt (locationId : String) (index : List (String × String)) :
    List CatalogItem → List CatalogItem × List CatalogItem
  | [] => ([], [])
  | item :: rest =>
    let keep :=
      match item.plu with
      | some p => truthyStr p && !(decide ((p, locationId) ∈ index))
      | none => false
    let r := findMissingSt locationId index rest
    (if keep then item :: r.1 else r.1, item :: r.2)

/-- An inventory record's `locations` list with malformed entries
(falsy `location`) removed. -/
def cleanEntries (entries : List LocEntry) : List LocEntry :=
  entries.filter fun lo => truthy lo.location

/-- An inventory with malformed records (falsy `plu`) removed and each
remaining record's `locations` list cleaned. -/
def cleanInventory (inventory : List InventoryRecord) : List InventoryRecord :=
  (inventory.filter fun rec => truthy rec.plu).map
    fun rec => { rec with locations := some (cleanEntries (rec.locations.getD [])) }

/-- A catalog with malformed items (falsy `plu`) removed. -/
def cleanItems (items : List CatalogItem) : List CatalogItem :=
  items.filter fun it => truthy it.plu

/-! ## Helper lemmas -/

lemma truthyStr_eq_true {s : String} : truthyStr s = true ↔ s ≠ "" := by
  simp [truthyStr]

lemma mem_entryPairs {p q l : String} {entries : List LocEntry} :
    (q, l) ∈ entryPairs p entries ↔
      q = p ∧ l ≠ "" ∧ ∃ lo ∈ entries, lo.location = some l := by
  unfold entryPairs
  rw [List.mem_filterMap]
  constructor
  · rintro ⟨lo, hlo, hf⟩
    split at hf
    next x heq =>
      split at hf
      next ht =>
        simp only [Option.some.injEq, Prod.mk.injEq] at hf
        obtain ⟨rfl, rfl⟩ := hf
        exact ⟨rfl, truthyStr_eq_true.mp ht, lo, hlo, heq⟩
      next ht => exact absurd hf (by simp)
    next heq => exact absurd hf (by simp)
  · rintro ⟨hq, hl, lo, hlo, hx⟩
    refine ⟨lo, hlo, ?_⟩
    rw [hx]
    show (if truthyStr l = true then some (p, l) else none) = some (q, l)
    rw [if_pos (truthyStr_eq_true.mpr hl)]
    subst hq; rfl

lemma mem_recordPairs {rec : InventoryRecord} {p l : String} :
    (p, l) ∈ recordPairs rec ↔
      rec.plu = some p ∧ p ≠ "" ∧
        ∃ lo ∈ rec.locations.getD [], lo.location = some l ∧ l ≠ "" := by
  unfold recordPairs
  cases hp : rec.plu with
  | none => simp
  | some q =>
    show ((p, l) ∈
        if truthyStr q = true then entryPairs q (rec.locations.getD []) else []) ↔ _
    by_cases hq : truthyStr q = true
    · rw [if_pos hq, mem_entryPairs]
      constructor
      · rintro ⟨rfl, hl, lo, hlo, hx⟩
        exact ⟨rfl, truthyStr_eq_true.mp hq, lo, hlo, hx, hl⟩
      · rintro ⟨hqp, _, lo, hlo, hx, hl⟩
        simp only [Option.some.injEq] at hqp
        exact ⟨hqp.symm, hl, lo, hlo, hx⟩
    · rw [if_neg hq]
      simp only [List.not_mem_nil, false_iff]
      rintro ⟨hqp, hpne, -⟩
      simp only [Option.some.injEq] at hqp
      exact hq (truthyStr_eq_true.mpr (hqp ▸ hpne))

lemma mem_buildInventoryLookup {I : List InventoryRecord} {p l : String} :
    (p, l) ∈ buildInventoryLookup I ↔
      ∃ rec ∈ I, rec.plu = some p ∧ p ≠ "" ∧
        ∃ lo ∈ rec.locations.getD [], lo.location = some l ∧ l ≠ "" := by
  induction I with
  | nil => simp [buildInventoryLookup]
  | cons hd tl ih =>
    simp only [buildInventoryLookup, List.mem_append, ih, List.mem_cons]
    constructor
    · rintro (hm | ⟨rec, hrec, h⟩)
      · exact ⟨hd, Or.inl rfl, mem_recordPairs.mp hm⟩
      · exact ⟨rec, Or.inr hrec, h⟩
    · rintro ⟨rec, hrec | hrec, h⟩
      · subst hrec
        exact Or.inl (mem_recordPairs.mpr h)
      · exact Or.inr ⟨rec, hrec, h⟩

lemma mem_findMissing {items : List CatalogItem} {loc : String}
    {idx : List (String × String)} {it : CatalogItem} :
    it ∈ findMissing items loc idx ↔
      it ∈ items ∧ ∃ p, it.plu = some p ∧ p ≠ "" ∧ (p, loc) ∉ idx := by
  unfold findMissing
  rw [List.mem_filter]
  refine and_congr_right fun _ => ?_
  obtain ⟨plu, name⟩ := it
  cases plu with
  | none => simp
  | some p =>
    show (truthyStr p && !(decide ((p, loc) ∈ idx))) = true ↔ _
    simp [truthyStr_eq_true]

lemma findMissing_sublist (items : List CatalogItem) (loc : String)
    (idx : List (String × String)) : (findMissing items loc idx).Sublist items :=
  List.filter_sublist items

lemma findMissingOpt_some {items : List CatalogItem} {l : String}
    {idx : List (String × String)} :
    findMissingOpt items (some l) idx = findMissing items l idx := by
  unfold findMissingOpt findMissing
  refine List.filter_congr fun it _ => ?_
  obtain ⟨plu, name⟩ := it
  cases plu <;> rfl

lemma findMissingOpt_none {items : List CatalogItem} {idx : List (String × String)} :
    findMissingOpt items none idx = cleanItems items := by
  unfold findMissingOpt cleanItems
  refine List.filter_congr fun it _ => ?_
  obtain ⟨plu, name⟩ := it
  cases plu <;> simp [truthy]

lemma hasInventory_OLD_eq_true {inv : List InventoryRecord} {p l : String} :
    hasInventory_OLD inv (some p) l = true ↔
      ∃ rec ∈ inv, rec.plu = some p ∧
        ∃ lo ∈ rec.locations.getD [], lo.location = some l := by
  simp [hasInventory_OLD, List.any_eq_true]

lemma hasInventory_OLD_eq_decide {inv : List InventoryRecord} {p l : String}
    (hp : p ≠ "") (hl : l ≠ "") :
    hasInventory_OLD inv (some p) l = decide ((p, l) ∈ buildInventoryLookup inv) := by
  by_cases h : (p, l) ∈ buildInventoryLookup inv
  · rw [decide_eq_true h]
    obtain ⟨rec, hrec, hplu, -, lo, hlo, hx, -⟩ := mem_buildInventoryLookup.mp h
    exact hasInventory_OLD_eq_true.mpr ⟨rec, hrec, hplu, lo, hlo, hx⟩
  · rw [decide_eq_false h, Bool.eq_false_iff]
    intro hcon
    obtain ⟨rec, hrec, hplu, lo, hlo, hx⟩ := hasInventory_OLD_eq_true.mp hcon
    exact h (mem_buildInventoryLookup.mpr ⟨rec, hrec, hplu, hp, lo, hlo, hx, hl⟩)

lemma any_key_eq_true {κ α : Type} [DecidableEq κ] {d : List (κ × α)} {k : κ} :
    (d.any fun kv => decide (kv.1 = k)) = true ↔ k ∈ d.map Prod.fst := by
  simp [List.any_eq_true, List.mem_map]

lemma map_ite_id {κ α : Type} [DecidableEq κ] {d : List (κ × α)} {k : κ} {v : α}
    (hval : ∀ kv ∈ d, kv.1 = k → kv.2 = v) :
    (d.map fun kv => if kv.1 = k then (k, v) else kv) = d := by
  induction d with
  | nil => rfl
  | cons hd tl ih =>
    simp only [List.map_cons]
    congr 1
    · by_cases h : hd.1 = k
      · rw [if_pos h]
        have hv := hval hd (List.mem_cons_self ..) h
        obtain ⟨k', v'⟩ := hd
        simp only at h hv
        rw [h, hv]
      · rw [if_neg h]
    · exact ih fun kv hkv hk => hval kv (List.mem_cons_of_mem _ hkv) hk

lemma dictInsert_of_mem {κ α : Type} [DecidableEq κ] {d : List (κ × α)} {k : κ} {v : α}
    (hmem : k ∈ d.map Prod.fst) (hval : ∀ kv ∈ d, kv.1 = k → kv.2 = v) :
    dictInsert d k v = d := by
  unfold dictInsert
  rw [if_pos (any_key_eq_true.mpr hmem)]
  exact map_ite_id hval

lemma dictInsert_of_not_mem {κ α : Type} [DecidableEq κ] {d : List (κ × α)}
    {k : κ} {v : α} (hmem : k ∉ d.map Prod.fst) :
    dictInsert d k v = d ++ [(k, v)] := by
  unfold dictInsert
  rw [if_neg fun hc => hmem (any_key_eq_true.mp hc)]

/-- The keys of the `missing_per_location` mapping, in insertion order. -/
def keysOf (m : List (Option String × LocReport)) : List (Option String) :=
  m.map Prod.fst

/-- Invariant of the report-building loop: keys are distinct, every stored
entry is the one `mkReport` builds for its key, and every stored key has a
non-empty missing list. -/
def GoodAcc (cache : List (Option String × Option String))
    (items : List CatalogItem) (lookup : List (String × String))
    (acc : List (Option String × LocReport)) : Prop :=
  (keysOf acc).Nodup ∧
    ∀ kv ∈ acc, kv.2 = mkReport cache items lookup kv.1 ∧
      (findMissingOpt items kv.1 lookup).isEmpty = false

lemma reportLoop_main (cache : List (Option String × Option String))
    (items : List CatalogItem) (lookup : List (String × String)) :
    ∀ (locs : List LocInput) (acc : List (Option String × LocReport)),
      GoodAcc cache items lookup acc →
      GoodAcc cache items lookup (reportLoop cache items lookup locs acc) ∧
        (keysOf (reportLoop cache items lookup locs acc)).toFinset =
          (keysOf acc).toFinset ∪
            ((locs.map locId).toFinset.filter
              fun d => (findMissingOpt items d lookup).isEmpty = false) := by
  intro locs
  induction locs with
  | nil =>
    intro acc hinv
    refine ⟨hinv, ?_⟩
    simp [reportLoop]
  | cons loc rest ih =>
    intro acc hinv
    simp only [reportLoop]
    rw [List.map_cons, List.toFinset_cons, Finset.filter_insert]
    by_cases hms : (findMissingOpt items (locId loc) lookup).isEmpty = true
    · rw [if_pos hms, if_neg (by simp [hms])]
      exact ih acc hinv
    · have hms' : (findMissingOpt items (locId loc) lookup).isEmpty = false :=
        Bool.eq_false_iff.mpr hms
      rw [if_neg hms, if_pos hms']
      by_cases hk : locId loc ∈ keysOf acc
      · have heq : dictInsert acc (locId loc)
            (mkReport cache items lookup (locId loc)) = acc := by
          refine dictInsert_of_mem hk fun kv hkv h1 => ?_
          rw [(hinv.2 kv hkv).1, h1]
        rw [heq]
        obtain ⟨g1, g2⟩ := ih acc hinv
        refine ⟨g1, ?_⟩
        rw [g2, Finset.union_insert,
          Finset.insert_eq_self.mpr
            (Finset.mem_union_left _ (List.mem_toFinset.mpr hk))]
      · have heq : dictInsert acc (locId loc)
            (mkReport cache items lookup (locId loc)) =
            acc ++ [(locId loc, mkReport cache items lookup (locId loc))] :=
          dictInsert_of_not_mem hk
        rw [heq]
        have hkeys : keysOf (acc ++ [(locId loc, mkReport cache items lookup (locId loc))]) =
            keysOf acc ++ [locId loc] := by
          simp [keysOf]
        have hinv' : GoodAcc cache items lookup
            (acc ++ [(locId loc, mkReport cache items lookup (locId loc))]) := by
          constructor
          · rw [hkeys, List.nodup_append]
            exact ⟨hinv.1, List.nodup_singleton _,
              fun a ha hb => (List.mem_singleton.mp hb ▸ hk) (List.mem_singleton.mp hb ▸ ha)⟩
          · intro kv hkv
            rcases List.mem_append.mp hkv with h | h
            · exact hinv.2 kv h
            · rw [List.mem_singleton.mp h]
              exact ⟨rfl, hms'⟩
        obtain ⟨g1, g2⟩ := ih _ hinv'
        refine ⟨g1, ?_⟩
        rw [g2, hkeys, List.toFinset_append]
        simp [Finset.insert_eq, Finset.union_assoc, Finset.union_empty]

lemma oldLoop_eq_newLoop {inv : List InventoryRecord} {items : List CatalogItem}
    (hitems : ∀ it ∈ items, truthy it.plu = true) :
    ∀ (locs : List String) (acc : List (String × List CatalogItem)),
      (∀ l ∈ locs, truthyStr l = true) →
      findMissingOldLoop inv items locs acc =
        findMissingNewLoop (buildInventoryLookup inv) items locs acc := by
  intro locs
  induction locs with
  | nil => intro acc _; rfl
  | cons loc rest ih =>
    intro acc hlocs
    have hfilter : (items.filter fun item => !hasInventory_OLD inv item.plu loc) =
        findMissing items loc (buildInventoryLookup inv) := by
      unfold findMissing
      refine List.filter_congr fun it hit => ?_
      have htr := hitems it hit
      obtain ⟨plu, name⟩ := it
      cases plu with
      | none => simp [truthy] at htr
      | some p =>
        show (!hasInventory_OLD inv (some p) loc) =
          (truthyStr p && !(decide ((p, loc) ∈ buildInventoryLookup inv)))
        have hp : p ≠ "" := truthyStr_eq_true.mp (by simpa [truthy] using htr)
        have hl : loc ≠ "" := truthyStr_eq_true.mp (hlocs loc (List.mem_cons_self ..))
        rw [hasInventory_OLD_eq_decide hp hl, truthyStr_eq_true.mpr hp,
          Bool.true_and]
    simp only [findMissingOldLoop, findMissingNewLoop, hfilter]
    exact ih _ fun l hl => hlocs l (List.mem_cons_of_mem _ hl)

lemma stripAll_keys {m : List (Option String × LocReport)} :
    (stripAll m).map Prod.fst = m.map Prod.fst := by
  simp [stripAll]

lemma any_key_map {κ α : Type} [DecidableEq κ] (d : List (κ × α)) (k : κ) :
    (d.any fun kv => decide (kv.1 = k)) =
      (d.map Prod.fst).any fun x => decide (x = k) := by
  induction d with
  | nil => rfl
  | cons hd tl ih => simp only [List.any_cons, List.map_cons, ih]

lemma stripAll_dictInsert_comm {m : List (Option String × LocReport)}
    {k : Option String} {r : LocReport} :
    stripAll (dictInsert m k r) = dictInsert (stripAll m) k (stripReport r) := by
  unfold dictInsert
  rw [any_key_map m k, any_key_map (stripAll m) k, stripAll_keys]
  by_cases h : ((m.map Prod.fst).any fun x => decide (x = k)) = true
  · rw [if_pos h, if_pos h]
    unfold stripAll
    rw [List.map_map, List.map_map]
    congr 1
    funext kv
    by_cases hk : kv.1 = k <;> simp [Function.comp, hk]
  · rw [if_neg h, if_neg h]
    unfold stripAll
    rw [List.map_append]
    rfl

lemma stripAll_reportLoop (items : List CatalogItem) (lookup : List (String × String)) :
    ∀ (locs₁ locs₂ : List LocInput)
      (cache₁ cache₂ : List (Option String × Option String))
      (acc₁ acc₂ : List (Option String × LocReport)),
      locs₁.map locId = locs₂.map locId → stripAll acc₁ = stripAll acc₂ →
      stripAll (reportLoop cache₁ items lookup locs₁ acc₁) =
        stripAll (reportLoop cache₂ items lookup locs₂ acc₂) := by
  intro locs₁
  induction locs₁ with
  | nil =>
    intro locs₂ c₁ c₂ a₁ a₂ hml hacc
    have h₂ : locs₂ = [] := by
      cases locs₂ with
      | nil => rfl
      | cons _ _ => exact absurd hml (by simp)
    subst h₂
    simpa [reportLoop] using hacc
  | cons loc rest ihl =>
    intro locs₂ c₁ c₂ a₁ a₂ hml hacc
    cases locs₂ with
    | nil => exact absurd hml (by simp)
    | cons loc₂ rest₂ =>
      simp only [List.map_cons, List.cons.injEq] at hml
      obtain ⟨hid, hrest⟩ := hml
      simp only [reportLoop, hid]
      by_cases hms : (findMissingOpt items (locId loc₂) lookup).isEmpty = true
      · rw [if_pos hms, if_pos hms]
        exact ihl _ _ _ _ _ hrest hacc
      · rw [if_neg hms, if_neg hms]
        refine ihl _ _ _ _ _ hrest ?_
        rw [stripAll_dictInsert_comm, stripAll_dictInsert_comm, hacc]
        rfl

lemma filterMap_filter_of_none {α β : Type} {f : α → Option β} {q : α → Bool}
    (h : ∀ x, q x = false → f x = none) (l : List α) :
    (l.filter q).filterMap f = l.filterMap f := by
  induction l with
  | nil => rfl
  | cons hd tl ih =>
    rw [List.filter_cons]
    by_cases hq : q hd = true
    · rw [if_pos hq]
      cases hfd : f hd <;> simp [List.filterMap_cons, hfd, ih]
    · rw [if_neg hq, List.filterMap_cons, h hd (Bool.eq_false_iff.mpr hq)]
      exact ih

lemma entryPairs_clean (p : String) (entries : List LocEntry) :
    entryPairs p (cleanEntries entries) = entryPairs p entries := by
  unfold entryPairs cleanEntries
  refine filterMap_filter_of_none (fun lo hlo => ?_) entries
  obtain ⟨loc⟩ := lo
  cases loc with
  | none => rfl
  | some s =>
    show (if truthyStr s = true then some (p, s) else none) = none
    rw [if_neg]
    intro hc
    rw [show truthy (LocEntry.mk (some s)).location = truthyStr s from rfl, hc] at hlo
    exact Bool.noConfusion hlo

lemma recordPairs_falsy {rec : InventoryRecord} (h : truthy rec.plu = false) :
    recordPairs rec = [] := by
  obtain ⟨plu, locs⟩ := rec
  cases plu with
  | none => rfl
  | some p =>
    show (if truthyStr p = true then entryPairs p (locs.getD []) else []) = []
    rw [if_neg]
    intro hc
    rw [show truthy (InventoryRecord.mk (some p) locs).plu = truthyStr p from rfl, hc] at h
    exact Bool.noConfusion h

lemma recordPairs_clean {rec : InventoryRecord} :
    recordPairs { rec with locations := some (cleanEntries (rec.locations.getD [])) } =
      recordPairs rec := by
  obtain ⟨plu, locs⟩ := rec
  cases plu with
  | none => rfl
  | some p =>
    show (if truthyStr p = true then entryPairs p (cleanEntries (locs.getD [])) else []) =
      (if truthyStr p = true then entryPairs p (locs.getD []) else [])
    by_cases ht : truthyStr p = true
    · rw [if_pos ht, if_pos ht, entryPairs_clean]
    · rw [if_neg ht, if_neg ht]

lemma buildInventoryLookup_clean (I : List InventoryRecord) :
    buildInventoryLookup (cleanInventory I) = buildInventoryLookup I := by
  induction I with
  | nil => rfl
  | cons rec rest ih =>
    unfold cleanInventory at *
    rw [List.filter_cons]
    by_cases h : truthy rec.plu = true
    · rw [if_pos h, List.map_cons]
      show recordPairs _ ++ buildInventoryLookup _ =
        recordPairs rec ++ buildInventoryLookup rest
      rw [recordPairs_clean, ih]
    · rw [if_neg h]
      show buildInventoryLookup _ =
        recordPairs rec ++ buildInventoryLookup rest
      rw [recordPairs_falsy (Bool.eq_false_iff.mpr h), ih, List.nil_append]

lemma findMissing_clean (items : List CatalogItem) (loc : String)
    (idx : List (String × String)) :
    findMissing (cleanItems items) loc idx = findMissing items loc idx := by
  unfold findMissing cleanItems
  rw [List.filter_filter]
  refine List.filter_congr fun it _ => ?_
  obtain ⟨plu, name⟩ := it
  cases plu with
  | none => rfl
  | some p => by_cases ht : truthyStr p = true <;> simp [truthy, ht]

lemma buildInventoryLookupSt_spec (I : List InventoryRecord) :
    (buildInventoryLookupSt I).2 = I ∧
      (buildInventoryLookupSt I).1 = buildInventoryLookup I := by
  induction I with
  | nil => exact ⟨rfl, rfl⟩
  | cons rec rest ih =>
    simp only [buildInventoryLookupSt, buildInventoryLookup]
    exact ⟨by rw [ih.1], by rw [ih.2]⟩

lemma findMissingSt_spec (loc : String) (idx : List (String × String))
    (items : List CatalogItem) :
    (findMissingSt loc idx items).2 = items ∧
      (findMissingSt loc idx items).1 = findMissing items loc idx := by
  induction items with
  | nil => exact ⟨rfl, rfl⟩
  | cons it rest ih =>
    simp only [findMissingSt, findMissing, List.filter_cons]
    constructor
    · rw [ih.1]
    · have h2 := ih.2
      unfold findMissing at h2
      cases hk : (match it.plu with
        | some p => truthyStr p && !(decide ((p, loc) ∈ idx))
        | none => false) <;>
        simp [hk, h2]

lemma map_congr_mem {α β : Type} {f g : α → β} :
    ∀ {l : List α}, (∀ a ∈ l, f a = g a) → l.map f = l.map g := by
  intro l
  induction l with
  | nil => intro _; rfl
  | cons hd tl ih =>
    intro h
    simp only [List.map_cons]
    rw [h hd (List.mem_cons_self ..), ih fun a ha => h a (List.mem_cons_of_mem _ ha)]

/-! ## Concrete fixtures used by witnesses and counterexamples -/

/-- The catalog of the spec's section-8 scenario. -/
def specItems : List CatalogItem :=
  [⟨some "123", some "A"⟩, ⟨some "456", some "B"⟩, ⟨some "999", some "C"⟩]

/-- The inventory of the spec's section-8 scenario. -/
def specInventory : List InventoryRecord :=
  [⟨some "123", some [⟨some "loc1"⟩]⟩]

/-- Two inventory records sharing one plu at different locations. -/
def sharedPluInventory : List InventoryRecord :=
  [⟨some "123", some [⟨some "locA"⟩]⟩, ⟨some "123", some [⟨some "locB"⟩]⟩]

/-- The example data at the top of optimization_example.py. -/
def exInventory : List InventoryRecord :=
  [⟨some "123", some [⟨some "loc1"⟩, ⟨some "loc2"⟩]⟩,
   ⟨some "456", some [⟨some "loc1"⟩]⟩,
   ⟨some "789", some [⟨some "loc2"⟩]⟩]

/-- The example catalog at the top of optimization_example.py. -/
def exItems : List CatalogItem :=
  [⟨some "123", some "Product A"⟩, ⟨some "456", some "Product B"⟩,
   ⟨some "999", some "Product C"⟩, ⟨some "888", some "Product D"⟩]

/-- A catalog item with an absent plu. -/
def noPluItem : CatalogItem := ⟨none, some "X"⟩

/-- An inventory record whose plu is the empty string. -/
def emptyPluRec : InventoryRecord := ⟨some "", some [⟨some "loc1"⟩]⟩

/-- A trivial stand-in for the network location-name fetch. -/
def wFetch : Option String → Option String := fun _ => none

/-! ## Claim theorems -/

/-- Claim C1: `findMissing` (the per-item filter loop of
`getMissingInventory`, also the inner loop of `findMissing_NEW`) returns
exactly those items whose plu is non-empty and whose (plu, locationId)
pair is absent from the index; every item with an empty or absent plu is
skipped; and the output is a sublist of the input, so the returned items
keep their relative order. -/
theorem claim_C1_findMissing_correct (items : List CatalogItem) (loc : String)
    (idx : List (String × String)) :
    (findMissing items loc idx).Sublist items ∧
    (∀ it, it ∈ findMissing items loc idx ↔
      it ∈ items ∧ ∃ p, it.plu = some p ∧ p ≠ "" ∧ (p, loc) ∉ idx) ∧
    (∀ it ∈ items, truthy it.plu = false → it ∉ findMissing items loc idx) := by
  refine ⟨findMissing_sublist items loc idx, fun it => mem_findMissing, ?_⟩
  intro it _ hfalsy hmem
  obtain ⟨-, p, hp, hpne, -⟩ := mem_findMissing.mp hmem
  rw [hp] at hfalsy
  exact hpne (by
    by_contra hne
    rw [show truthy (some p) = truthyStr p from rfl,
      truthyStr_eq_true.mpr hne] at hfalsy
    exact Bool.noConfusion hfalsy)

/-- Witness for C1 at the spec's section-8 scenario: item B (plu 456) is
reported missing at loc1. -/
theorem claim_C1_witness :
    (⟨some "456", some "B"⟩ : CatalogItem) ∈
      findMissing specItems "loc1" (buildInventoryLookup specInventory) :=
  ((claim_C1_findMissing_correct specItems "loc1"
      (buildInventoryLookup specInventory)).2.1 _).mpr
    ⟨by decide, "456", rfl, by decide, by decide⟩

/-- Counterexample to claim C2 as stated: on an item with an absent plu
and an empty inventory, `findMissing_OLD` reports the item (it performs
no truthiness check on the plu) while `findMissing_NEW` skips it, so the
two mappings differ. -/
theorem claim_C2_counterexample :
    findMissing_OLD [] [noPluItem] ["loc1"] ≠
      findMissing_NEW [] [noPluItem] ["loc1"] := by decide

/-- Claim C2, amended: `findMissing_OLD` and `findMissing_NEW` agree on
every input in which every item's plu is present and non-empty and every
queried location id is non-empty. -/
theorem claim_C2_old_eq_new (inventory : List InventoryRecord)
    (items : List CatalogItem) (locations : List String)
    (hitems : ∀ it ∈ items, truthy it.plu = true)
    (hlocs : ∀ l ∈ locations, truthyStr l = true) :
    findMissing_OLD inventory items locations =
      findMissing_NEW inventory items locations :=
  oldLoop_eq_newLoop hitems locations [] hlocs

/-- Witness for the amended C2 on the optimization_example.py data. -/
theorem claim_C2_witness :
    (∀ it ∈ exItems, truthy it.plu = true) ∧
    (∀ l ∈ ["loc1", "loc2"], truthyStr l = true) ∧
    findMissing_OLD exInventory exItems ["loc1", "loc2"] =
      findMissing_NEW exInventory exItems ["loc1", "loc2"] :=
  ⟨by decide, by decide,
   claim_C2_old_eq_new exInventory exItems ["loc1", "loc2"] (by decide) (by decide)⟩

/-- Claim C3: a pair (p, l) is in `buildInventoryLookup I` iff some
record of `I` has plu `p` and a location entry with id `l`, both
non-empty; entries with falsy plu or location id are skipped, and the
index is a union across all matching records (the existential ranges
over every record of `I`, never last-write-wins). -/
theorem claim_C3_lookup_membership (I : List InventoryRecord) (p l : String) :
    (p, l) ∈ buildInventoryLookup I ↔
      ∃ rec ∈ I, rec.plu = some p ∧ p ≠ "" ∧
        ∃ lo ∈ rec.locations.getD [], lo.location = some l ∧ l ≠ "" :=
  mem_buildInventoryLookup

/-- Witness for C3: with two records sharing plu 123 at locA and locB,
the pair (123, locB) contributed by the second record is in the index. -/
theorem claim_C3_witness :
    ("123", "locB") ∈ buildInventoryLookup sharedPluInventory :=
  (claim_C3_lookup_membership sharedPluInventory "123" "locB").mpr
    ⟨⟨some "123", some [⟨some "locB"⟩]⟩, by decide, rfl, by decide,
     ⟨some "locB"⟩, by decide, rfl, by decide⟩

/-- Counterexample to claim C4 as stated: the pair ("", "loc1") is
present in a record of the inventory (the record's plu is "" and its
locations list holds an entry with id "loc1"), yet `buildInventoryLookup`
does not contain it, because the empty plu is skipped. -/
theorem claim_C4_counterexample :
    emptyPluRec ∈ [emptyPluRec] ∧ emptyPluRec.plu = some "" ∧
      (⟨some "loc1"⟩ : LocEntry) ∈ emptyPluRec.locations.getD [] ∧
      (⟨some "loc1"⟩ : LocEntry).location = some "loc1" ∧
      ("", "loc1") ∉ buildInventoryLookup [emptyPluRec] := by decide

/-- Claim C4, amended: for every (plu, loc) pair with non-empty plu and
non-empty loc that is present in some record of `I`,
`buildInventoryLookup I` contains the pair. -/
theorem claim_C4_lookup_complete (I : List InventoryRecord) (p l : String)
    (hp : p ≠ "") (hl : l ≠ "")
    (h : ∃ rec ∈ I, rec.plu = some p ∧
      ∃ lo ∈ rec.locations.getD [], lo.location = some l) :
    (p, l) ∈ buildInventoryLookup I := by
  obtain ⟨rec, hrec, hplu, lo, hlo, hx⟩ := h
  exact mem_buildInventoryLookup.mpr ⟨rec, hrec, hplu, hp, lo, hlo, hx, hl⟩

/-- Witness for the amended C4 at the spec scenario inventory. -/
theorem claim_C4_witness :
    ("123", "loc1") ∈ buildInventoryLookup specInventory :=
  claim_C4_lookup_complete specInventory "123" "loc1" (by decide) (by decide)
    ⟨⟨some "123", some [⟨some "loc1"⟩]⟩, by decide, rfl, ⟨some "loc1"⟩, by decide, rfl⟩

/-- Claim C5: in the mapping returned by the all-locations branch of
`getMissingInventory`, the count stored under each key equals the length
of the missing-item sequence computed by the per-item filter loop for
that key (for string keys, `findMissing`), and a location from the input
whose missing-item sequence is empty never appears as a key. -/
theorem claim_C5_aggregation (fetchName : Option String → Option String)
    (items : List CatalogItem) (inventory : List InventoryRecord)
    (locations : List LocInput) :
    (∀ k rep, (k, rep) ∈ getMissingInventoryAll fetchName items inventory locations →
      rep.count = (findMissingOpt items k (buildInventoryLookup inventory)).length ∧
      ∀ l, k = some l →
        rep.count = (findMissing items l (buildInventoryLookup inventory)).length) ∧
    (∀ loc ∈ locations,
      findMissingOpt items (locId loc) (buildInventoryLookup inventory) = [] →
      ∀ rep, (locId loc, rep) ∉
        getMissingInventoryAll fetchName items inventory locations) := by
  have hgood : GoodAcc (buildNameCache fetchName locations []) items
      (buildInventoryLookup inventory) [] := ⟨List.nodup_nil, by simp⟩
  have hmain := reportLoop_main (buildNameCache fetchName locations []) items
    (buildInventoryLookup inventory) locations [] hgood
  constructor
  · intro k rep hmem
    have hrep := (hmain.1.2 (k, rep) hmem).1
    dsimp only at hrep
    have hcount : rep.count =
        (findMissingOpt items k (buildInventoryLookup inventory)).length := by
      rw [hrep]; rfl
    refine ⟨hcount, fun l hkl => ?_⟩
    rw [hcount, hkl, findMissingOpt_some]
  · intro loc _ hempty rep hmem
    have hkey : locId loc ∈ keysOf (reportLoop
        (buildNameCache fetchName locations []) items
        (buildInventoryLookup inventory) locations []) :=
      List.mem_map.mpr ⟨(locId loc, rep), hmem, rfl⟩
    have := hmain.2 ▸ List.mem_toFinset.mpr hkey
    rw [show keysOf ([] : List (Option String × LocReport)) = [] from rfl] at this
    simp only [List.toFinset_nil, Finset.empty_union, Finset.mem_filter] at this
    rw [hempty] at this
    exact Bool.noConfusion this.2

/-- Witness for C5 at the spec's section-8 scenario with one location. -/
theorem claim_C5_witness :
    ({ location_name := none, location_id := some "loc1",
       missing_items := [⟨some "456", some "B"⟩, ⟨some "999", some "C"⟩],
       count := 2 } : LocReport).count =
      (findMissingOpt specItems (some "loc1")
        (buildInventoryLookup specInventory)).length :=
  ((claim_C5_aggregation wFetch specItems specInventory [.str "loc1"]).1
    (some "loc1") _ (by decide)).1

/-- Claim C6: the aggregate result of the all-locations branch exposes
the total missing-item count summed across all locations (as the sum of
the per-entry counts, exactly how the dashboard reads it) and the number
of locations with at least one missing item (as the number of entries,
which is well defined because zero-missing locations are omitted). -/
theorem claim_C6_aggregate_totals (fetchName : Option String → Option String)
    (items : List CatalogItem) (inventory : List InventoryRecord)
    (locations : List LocInput) :
    totalMissingItems (getMissingInventoryAll fetchName items inventory locations) =
      Finset.sum ((locations.map locId).toFinset)
        (fun d => (findMissingOpt items d (buildInventoryLookup inventory)).length) ∧
    locationsWithMissingCount
        (getMissingInventoryAll fetchName items inventory locations) =
      (((locations.map locId).toFinset).filter
        (fun d => (findMissingOpt items d
          (buildInventoryLookup inventory)).isEmpty = false)).card := by
  have hgood : GoodAcc (buildNameCache fetchName locations []) items
      (buildInventoryLookup inventory) [] := ⟨List.nodup_nil, by simp⟩
  have hmain := reportLoop_main (buildNameCache fetchName locations []) items
    (buildInventoryLookup inventory) locations [] hgood
  have hkeysEq : (keysOf (reportLoop (buildNameCache fetchName locations []) items
      (buildInventoryLookup inventory) locations [])).toFinset =
      ((locations.map locId).toFinset.filter
        fun d => (findMissingOpt items d
          (buildInventoryLookup inventory)).isEmpty = false) := by
    have h := hmain.2
    rw [show keysOf ([] : List (Option String × LocReport)) = [] from rfl] at h
    simpa using h
  constructor
  · show totalMissingItems (reportLoop (buildNameCache fetchName locations []) items
      (buildInventoryLookup inventory) locations []) = _
    unfold totalMissingItems
    rw [map_congr_mem (g := fun kv =>
        (findMissingOpt items kv.1 (buildInventoryLookup inventory)).length)
      (fun kv hkv => by rw [(hmain.1.2 kv hkv).1]; rfl)]
    rw [show (fun kv : Option String × LocReport =>
        (findMissingOpt items kv.1 (buildInventoryLookup inventory)).length) =
      (fun k => (findMissingOpt items k (buildInventoryLookup inventory)).length) ∘
        Prod.fst from rfl]
    rw [← List.map_map, ← keysOf,
      ← List.sum_toFinset _ hmain.1.1, hkeysEq]
    refine Finset.sum_filter_of_ne fun d _ hlen => ?_
    cases hms : findMissingOpt items d (buildInventoryLookup inventory) with
    | nil => rw [hms] at hlen; exact absurd rfl hlen
    | cons a l => rfl
  · show locationsWithMissingCount (reportLoop (buildNameCache fetchName locations [])
      items (buildInventoryLookup inventory) locations []) = _
    unfold locationsWithMissingCount
    rw [← hkeysEq, List.toFinset_card_of_nodup hmain.1.1]
    exact (List.length_map ..).symm

/-- Claim C7: `buildInventoryLookup` and `findMissing` are total Lean
functions over records in which the plu field, the locations field, or a
location id may be absent (all are `Option` fields), so every input is
processed to a normal result without raising; moreover each malformed
entry is skipped and the remaining well-formed entries are processed as
usual: cleaning the malformed entries away first does not change either
result. -/
theorem claim_C7_malformed_tolerated (I : List InventoryRecord)
    (items : List CatalogItem) (loc : String) (idx : List (String × String)) :
    buildInventoryLookup (cleanInventory I) = buildInventoryLookup I ∧
    findMissing (cleanItems items) loc idx = findMissing items loc idx :=
  ⟨buildInventoryLookup_clean I, findMissing_clean items loc idx⟩

/-- Claim C8: `buildInventoryLookup` is deterministic and depends only on
its input: two calls on the same inventory produce equal indexes, with
identical membership. -/
theorem claim_C8_idempotent (I : List InventoryRecord) :
    buildInventoryLookup I = buildInventoryLookup I ∧
    ∀ pr, pr ∈ buildInventoryLookup I ↔ pr ∈ buildInventoryLookup I :=
  ⟨rfl, fun _ => Iff.rfl⟩

/-- Claim C9: in the state-passing rendering of the two loops (which
records every access the Python code makes to its inputs), the inventory
and items sequences come back element-wise unchanged, and the values
built are exactly the local results `buildInventoryLookup` and
`findMissing`. -/
theorem claim_C9_no_mutation (I : List InventoryRecord) (items : List CatalogItem)
    (loc : String) (idx : List (String × String)) :
    (buildInventoryLookupSt I).2 = I ∧
    (buildInventoryLookupSt I).1 = buildInventoryLookup I ∧
    (findMissingSt loc idx items).2 = items ∧
    (findMissingSt loc idx items).1 = findMissing items loc idx :=
  ⟨(buildInventoryLookupSt_spec I).1, (buildInventoryLookupSt_spec I).2,
   (findMissingSt_spec loc idx items).1, (findMissingSt_spec loc idx items).2⟩

/-- Claim C10: in all-locations mode a location given as a plain string
and one given as a record with the same "id" are interchangeable: they
yield the same `loc_id`, and swapping one shape for the other anywhere in
the locations list leaves the result mapping unchanged up to the
presentation-only `location_name` field — in particular the keys, the
membership checks (the missing-item lists), and the counts coincide. -/
theorem claim_C10_location_shapes (fetchName : Option String → Option String)
    (items : List CatalogItem) (inventory : List InventoryRecord)
    (pre post : List LocInput) (s : String) (nm : Option String) :
    locId (LocInput.str s) = locId (LocInput.dict (some s) nm) ∧
    stripAll (getMissingInventoryAll fetchName items inventory
        (pre ++ LocInput.str s :: post)) =
      stripAll (getMissingInventoryAll fetchName items inventory
        (pre ++ LocInput.dict (some s) nm :: post)) := by
  refine ⟨rfl, ?_⟩
  simp only [getMissingInventoryAll]
  refine stripAll_reportLoop items (buildInventoryLookup inventory) _ _ _ _ _ _ ?_ rfl
  simp [locId]
